import Mathlib

/-!
Verification of the Loopmaster-AI audio core: the loop-point detector
(src/services/audioDsp.ts) and the WAV writer with smpl chunk
(src/services/wavWriter.ts), shallowly embedded over rational-valued
samples and natural-number byte lists.
-/

namespace Loopmaster

/-- A decoded audio buffer (the Web Audio AudioBuffer the core consumes):
channel count, sample rate in Hz, frame count, and per-channel sample data,
where channelData ch i is getChannelData(ch)[i].  Samples are modelled as
rationals. -/
structure AudioBuffer where
  numberOfChannels : Nat
  sampleRate : Nat
  length : Nat
  channelData : Nat → Nat → ℚ

/-- A detected loop point (the LoopPoint record of types.ts): id, start and
end sample offsets, integer confidence score, and display label. -/
structure LoopPoint where
  id : Nat
  start : Nat
  «end» : Nat
  score : Int
  name : String
deriving DecidableEq, Repr

/-- audioDsp.ts findZeroCrossing: scan the window [max(0, target-windowSize),
min(len-1, target+windowSize)) for the sign-change index whose sample has the
smallest magnitude below 1.0; fall back to the target itself when none is
found.  Indices are naturals here, so the JS Math.max(0, target - windowSize)
clamp is truncated subtraction. -/
def findZeroCrossing (data : Nat → ℚ) (len : Nat) (target windowSize : Nat) : Nat :=
  ((List.range' (target - windowSize) (min (len - 1) (target + windowSize) - (target - windowSize))).foldl
    (fun acc i =>
      if (data i ≤ 0 ∧ 0 < data (i + 1)) ∨ (0 ≤ data i ∧ data (i + 1) < 0) then
        if |data i| < acc.2 then (i, |data i|) else acc
      else acc)
    (target, (1 : ℚ))).1

/-- audioDsp.ts calculateCorrelation: mean absolute difference of two
window-length segments, turned into a 0-100 score.  The JS guard also tests
idxA < 0 and idxB < 0, which is vacuous over naturals. -/
def calculateCorrelation (data : Nat → ℚ) (len : Nat) (idxA idxB window : Nat) : ℚ :=
  if len ≤ idxA + window ∨ len ≤ idxB + window then 0
  else
    max 0 (100 - ((List.range window).foldl
      (fun s i => s + |data (idxA + i) - data (idxB + i)|) 0) / (window : ℚ) * 200)

/-- JS Math.round: floor(x + 1/2) (ties round toward positive infinity). -/
def jsRound (q : ℚ) : Int := ⌊q + 1 / 2⌋

/-- The inner start-point scan of detectLoopPoints: for i = 0; i <
maxStartIndex; i += searchStep, snap i to a zero crossing (window 100), skip
it when it lands at or beyond maxStartIndex, otherwise score it against
validEnd and keep the best.  searchStep = max(10, floor(validEnd / 100)) is
computed from validEnd exactly as in the source, where it is hoisted out of
the loop. -/
def startScan (data : Nat → ℚ) (len validEnd maxStartIndex i bestStart : Nat)
    (bestScore : ℚ) : Nat × ℚ :=
  if _h : i < maxStartIndex then
    let searchStep := max 10 (validEnd / 100)
    let candidateStart := findZeroCrossing data len i 100
    if maxStartIndex ≤ candidateStart then
      startScan data len validEnd maxStartIndex (i + searchStep) bestStart bestScore
    else
      let score := calculateCorrelation data len candidateStart validEnd 500
      if bestScore < score then
        startScan data len validEnd maxStartIndex (i + searchStep) candidateStart score
      else
        startScan data len validEnd maxStartIndex (i + searchStep) bestStart bestScore
  else
    (bestStart, bestScore)
termination_by maxStartIndex - i
decreasing_by
  all_goals
    have h10 : 10 ≤ max 10 (validEnd / 100) := le_max_left _ _
    omega

/-- The three probed end regions of detectLoopPoints: len - 100, 75% and 50%
of the file, keeping only those above 1000.  Math.floor(len * 0.75) is
3 * len / 4 and Math.floor(len * 0.5) is len / 2 in exact arithmetic. -/
def candidateEndRegions (len : Nat) : List Nat :=
  [len - 100, 3 * len / 4, len / 2].filter (fun idx => 1000 < idx)

/-- The record pushed for an accepted region: the object literal of
detectLoopPoints reads the counter for its id before the increment while the
label uses the incremented value, matching the field evaluation order. -/
def mkPoint (idCounter bestStart validEnd : Nat) (bestScore : ℚ) : LoopPoint :=
  { id := idCounter, start := bestStart, «end» := validEnd,
    score := jsRound bestScore,
    name := "Auto Loop " ++ toString (idCounter + 1) }

@[simp] lemma mkPoint_id (i b v : Nat) (s : ℚ) : (mkPoint i b v s).id = i := rfl

@[simp] lemma mkPoint_start (i b v : Nat) (s : ℚ) : (mkPoint i b v s).start = b := rfl

@[simp] lemma mkPoint_end (i b v : Nat) (s : ℚ) : (mkPoint i b v s).«end» = v := rfl

@[simp] lemma mkPoint_score (i b v : Nat) (s : ℚ) : (mkPoint i b v s).score = jsRound s := rfl

/-- The body of the forEach over candidateEndRegions in detectLoopPoints,
threading the accumulated points list and the id counter. -/
def processRegion (data : Nat → ℚ) (len : Nat) (acc : List LoopPoint × Nat)
    (regionEndTarget : Nat) : List LoopPoint × Nat :=
  let validEnd := findZeroCrossing data len regionEndTarget 2000
  if validEnd < 22050 then acc
  else
    let best := startScan data len validEnd (validEnd - 1000) 0 0 (-1)
    if 60 < best.2 then
      (acc.1 ++ [mkPoint acc.2 best.1 validEnd best.2], acc.2 + 1)
    else acc

/-- audioDsp.ts detectLoopPoints: analyze channel 0, probe three end regions,
accept each region's best-scoring start when the score exceeds 60, then
stable-sort by descending score and keep the top 3.  The JS comparator
(a, b) -> b.score - a.score with a stable Array.sort is the stable mergeSort
under b.score <= a.score. -/
def detectLoopPoints (buffer : AudioBuffer) : List LoopPoint :=
  (((candidateEndRegions buffer.length).foldl
      (processRegion (buffer.channelData 0) buffer.length) ([], 1)).1.mergeSort
    (fun a b => decide (b.score ≤ a.score))).take 3

/-! WAV writer (src/services/wavWriter.ts). -/

/-- Little-endian bytes of a 16-bit field, as written by setUint16 (which
reduces its argument mod 2^16). -/
def u16le (n : Nat) : List Nat := [n % 256, n / 256 % 256]

/-- Little-endian bytes of a 32-bit field, as written by setUint32 (which
reduces its argument mod 2^32). -/
def u32le (n : Nat) : List Nat :=
  [n % 256, n / 256 % 256, n / 65536 % 256, n / 16777216 % 256]

/-- wavWriter.ts writeString: the char codes of a (pure ASCII) tag. -/
def writeString (s : String) : List Nat := s.toList.map Char.toNat

/-- JS truncation toward zero of a rational (the integer conversion applied
when a number is stored into an Int16Array). -/
def jsTrunc (q : ℚ) : Int := if q < 0 then -⌊-q⌋ else ⌊q⌋

/-- Storing a number into an Int16Array: truncate toward zero, then wrap into
[-32768, 32767]. -/
def toInt16 (q : ℚ) : Int := (jsTrunc q + 32768) % 65536 - 32768

/-- The sample conversion of wavWriter.ts: clamp to [-1, 1], scale negatives
by 0x8000 and non-negatives by 0x7FFF, and store as a 16-bit integer. -/
def encodeSample (q : ℚ) : Int :=
  let s := max (-1) (min 1 q)
  toInt16 (if s < 0 then s * 32768 else s * 32767)

/-- The two little-endian bytes of a stored 16-bit sample (the Uint8Array
view of the Int16Array buffer). -/
def int16Bytes (v : Int) : List Nat := u16le (v % 65536).toNat

/-- The interleaved PCM payload.  The writer's nested loop stores frame i,
channel ch at flat index k = i * numChannels + ch; for ch < numChannels these
indices are exactly the k < length * numChannels with i = k / numChannels and
ch = k % numChannels, so the filled Int16Array is indexed by that
decomposition. -/
def pcmData (buffer : AudioBuffer) : List Nat :=
  (List.range (buffer.length * buffer.numberOfChannels)).flatMap fun k =>
    int16Bytes (encodeSample
      (buffer.channelData (k % buffer.numberOfChannels) (k / buffer.numberOfChannels)))

/-- The first 44 bytes written by exportWavWithSmpl: RIFF header, fmt chunk
and the data chunk header. -/
def wavHeader (buffer : AudioBuffer) (loopPresent : Bool) : List Nat :=
  let numChannels := buffer.numberOfChannels
  let dataChunkSize := buffer.length * numChannels * 2
  let fileSize := 4 + (8 + 16) + (8 + dataChunkSize) + (if loopPresent then 8 + 60 else 0)
  writeString "RIFF" ++ u32le fileSize ++ writeString "WAVE" ++
  writeString "fmt " ++ u32le 16 ++ u16le 1 ++ u16le numChannels ++
  u32le buffer.sampleRate ++ u32le (buffer.sampleRate * numChannels * 2) ++
  u16le (numChannels * 2) ++ u16le 16 ++
  writeString "data" ++ u32le dataChunkSize

/-- The 68-byte smpl chunk written when a loop point is present: tag, size
60, nine 32-bit header fields (manufacturer, product, sample period
1e9/sampleRate truncated, unity note 60, pitch fraction, SMPTE format, SMPTE
offset, loop count 1, sampler data), then one loop record (cue id, type,
start, end, fraction, play count). -/
def smplChunk (sampleRate : Nat) (lp : LoopPoint) : List Nat :=
  writeString "smpl" ++ u32le 60 ++
  u32le 0 ++ u32le 0 ++ u32le (1000000000 / sampleRate) ++ u32le 60 ++ u32le 0 ++
  u32le 0 ++ u32le 0 ++ u32le 1 ++ u32le 0 ++
  u32le 0 ++ u32le 0 ++ u32le lp.start ++ u32le lp.«end» ++ u32le 0 ++ u32le 0

/-- wavWriter.ts exportWavWithSmpl: the complete byte image, writing the
header, the PCM payload and, iff a loop point is supplied, the smpl chunk.
The sequential DataView writes cover the ArrayBuffer exactly, so the file is
the concatenation of the pieces. -/
def exportWavWithSmpl (buffer : AudioBuffer) (loopPoint : Option LoopPoint) : List Nat :=
  wavHeader buffer loopPoint.isSome ++ pcmData buffer ++
  (match loopPoint with
   | none => []
   | some lp => smplChunk buffer.sampleRate lp)

/-! Byte-level readers used to state the parsing and field claims; they
decode the little-endian layout of the format description in the spec. -/

/-- Read an unsigned 16-bit little-endian field. -/
def readU16 (l : List Nat) (off : Nat) : Nat := l.getD off 0 + 256 * l.getD (off + 1) 0

/-- Read an unsigned 32-bit little-endian field. -/
def readU32 (l : List Nat) (off : Nat) : Nat :=
  l.getD off 0 + 256 * l.getD (off + 1) 0 + 65536 * l.getD (off + 2) 0 +
    16777216 * l.getD (off + 3) 0

/-- Read a signed 16-bit little-endian PCM sample. -/
def readInt16 (l : List Nat) (off : Nat) : Int :=
  let u := readU16 l off
  if u < 32768 then (u : Int) else (u : Int) - 65536

/-- Map a decoded 16-bit sample back to a rational in [-1, 1], inverting the
writer's scaling. -/
def decodeSample (v : Int) : ℚ := if v < 0 then (v : ℚ) / 32768 else (v : ℚ) / 32767

/-- A sign change between sample i and sample i + 1, exactly the condition
findZeroCrossing tests. -/
def isCrossing (data : Nat → ℚ) (i : Nat) : Prop :=
  (data i ≤ 0 ∧ 0 < data (i + 1)) ∨ (0 ≤ data i ∧ data (i + 1) < 0)

instance (data : Nat → ℚ) (i : Nat) : Decidable (isCrossing data i) := by
  unfold isCrossing; infer_instance

/-! General foldl helpers. -/

lemma foldl_inv {α β : Type} {P : β → Prop} (f : β → α → β) :
    ∀ (l : List α) (b : β), P b → (∀ b a, a ∈ l → P b → P (f b a)) → P (l.foldl f b) := by
  intro l
  induction l with
  | nil => intro b hb _; simpa using hb
  | cons x xs ih =>
    intro b hb hstep
    simp only [List.foldl_cons]
    exact ih (f b x) (hstep b x (by simp) hb)
      (fun b a ha hb => hstep b a (by simp [ha]) hb)

lemma foldl_fixed {α β : Type} (f : β → α → β) :
    ∀ (l : List α) (b : β), (∀ b a, a ∈ l → f b a = b) → l.foldl f b = b := by
  intro l b hfix
  exact foldl_inv (P := fun x => x = b) f l b rfl
    (fun b' a ha hb => by rw [hfix b' a ha, hb])

/-! Characterization of findZeroCrossing: it returns either a genuine
zero-crossing index inside the search window, or the probed target itself. -/

lemma findZeroCrossing_spec (data : Nat → ℚ) (len target windowSize : Nat) :
    findZeroCrossing data len target windowSize = target ∨
      (isCrossing data (findZeroCrossing data len target windowSize) ∧
        target - windowSize ≤ findZeroCrossing data len target windowSize ∧
        findZeroCrossing data len target windowSize < min (len - 1) (target + windowSize)) := by
  unfold findZeroCrossing
  have h := foldl_inv (β := Nat × ℚ)
    (P := fun acc => acc.1 = target ∨
      (isCrossing data acc.1 ∧ target - windowSize ≤ acc.1 ∧
        acc.1 < min (len - 1) (target + windowSize)))
    (fun acc i =>
      if (data i ≤ 0 ∧ 0 < data (i + 1)) ∨ (0 ≤ data i ∧ data (i + 1) < 0) then
        if |data i| < acc.2 then (i, |data i|) else acc
      else acc)
    (List.range' (target - windowSize)
      (min (len - 1) (target + windowSize) - (target - windowSize)))
    (target, (1 : ℚ))
    (Or.inl rfl)
  apply h
  intro b a ha hb
  rw [List.mem_range'_1] at ha
  by_cases hcross : (data a ≤ 0 ∧ 0 < data (a + 1)) ∨ (0 ≤ data a ∧ data (a + 1) < 0)
  · by_cases hlt : |data a| < b.2
    · simp only [if_pos hcross, if_pos hlt]
      exact Or.inr ⟨hcross, by omega, by omega⟩
    · simpa [if_pos hcross, if_neg hlt] using hb
  · simpa [if_neg hcross] using hb

/-- On an all-zero channel no sign change exists, so findZeroCrossing returns
the probed target unchanged. -/
lemma findZeroCrossing_zero (len target windowSize : Nat) :
    findZeroCrossing (fun _ => (0 : ℚ)) len target windowSize = target := by
  unfold findZeroCrossing
  rw [foldl_fixed]
  intro b a _
  norm_num

/-- The result of findZeroCrossing never exceeds max target (len - 1). -/
lemma findZeroCrossing_le (data : Nat → ℚ) (len target windowSize : Nat) :
    findZeroCrossing data len target windowSize ≤ max target (len - 1) := by
  rcases findZeroCrossing_spec data len target windowSize with h | ⟨_, _, h⟩ <;> omega

/-! Bounds on calculateCorrelation. -/

lemma corr_sum_nonneg (data : Nat → ℚ) (idxA idxB window : Nat) :
    0 ≤ (List.range window).foldl
      (fun s i => s + |data (idxA + i) - data (idxB + i)|) 0 := by
  apply foldl_inv (P := fun s : ℚ => 0 ≤ s)
  · exact le_refl _
  · intro b a _ hb
    exact add_nonneg hb (abs_nonneg _)

lemma calculateCorrelation_nonneg (data : Nat → ℚ) (len idxA idxB window : Nat) :
    0 ≤ calculateCorrelation data len idxA idxB window := by
  unfold calculateCorrelation
  split
  · exact le_refl _
  · exact le_max_left _ _

lemma calculateCorrelation_le_100 (data : Nat → ℚ) (len idxA idxB window : Nat) :
    calculateCorrelation data len idxA idxB window ≤ 100 := by
  unfold calculateCorrelation
  split
  · norm_num
  · apply max_le (by norm_num)
    have hs := corr_sum_nonneg data idxA idxB window
    have hw : (0 : ℚ) ≤ (window : ℚ) := by positivity
    nlinarith [div_nonneg hs hw]

/-- When the correlation score is positive, both 500-sample windows fit
inside the buffer; in particular a score above the threshold forces
idxB + window < len. -/
lemma calculateCorrelation_pos_bounds (data : Nat → ℚ) (len idxA idxB window : Nat)
    (h : 0 < calculateCorrelation data len idxA idxB window) :
    idxA + window < len ∧ idxB + window < len := by
  unfold calculateCorrelation at h
  by_cases hb : len ≤ idxA + window ∨ len ≤ idxB + window
  · rw [if_pos hb] at h; exact absurd h (by norm_num)
  · push_neg at hb; exact hb

/-- On an all-zero channel the correlation is 0 when a window runs past the
buffer and exactly 100 otherwise. -/
lemma calculateCorrelation_zero (len idxA idxB window : Nat) :
    calculateCorrelation (fun _ => (0 : ℚ)) len idxA idxB window =
      if len ≤ idxA + window ∨ len ≤ idxB + window then 0 else 100 := by
  unfold calculateCorrelation
  split
  · rfl
  · have hsum : (List.range window).foldl
        (fun s _ => s + |(0 : ℚ) - 0|) 0 = 0 := by
      rw [foldl_fixed]; intro b a _; norm_num
    rw [hsum]
    norm_num

/-! Invariants of the start-point scan. -/

/-- If every candidate correlation against validEnd is at most the current
best score, the scan never changes its accumulator. -/
lemma startScan_const (data : Nat → ℚ) (len validEnd maxStartIndex : Nat) (s : ℚ)
    (hs : ∀ c, calculateCorrelation data len c validEnd 500 ≤ s) :
    ∀ (n i b : Nat), maxStartIndex - i ≤ n →
      startScan data len validEnd maxStartIndex i b s = (b, s) := by
  intro n
  induction n with
  | zero =>
    intro i b hn
    rw [startScan]
    rw [dif_neg (by omega)]
  | succ n ih =>
    intro i b hn
    rw [startScan]
    by_cases hi : i < maxStartIndex
    · rw [dif_pos hi]
      have hstep : 10 ≤ max 10 (validEnd / 100) := le_max_left _ _
      by_cases hskip : maxStartIndex ≤ findZeroCrossing data len i 100
      · simp only [if_pos hskip]
        exact ih _ b (by omega)
      · simp only [if_neg hskip]
        rw [if_neg (not_lt.mpr (hs _))]
        exact ih _ b (by omega)
    · rw [dif_neg hi]

/-- Once the scan has recorded a best pair, the recorded start is the
zero-crossing snap of some probed index below maxStartIndex and the recorded
score is exactly its correlation against validEnd; initially the score is the
sentinel -1. -/
lemma startScan_char (data : Nat → ℚ) (len validEnd maxStartIndex : Nat) :
    ∀ (n i b : Nat) (s : ℚ), maxStartIndex - i ≤ n →
      (s = -1 ∨ (∃ j, b = findZeroCrossing data len j 100) ∧ b < maxStartIndex ∧
        s = calculateCorrelation data len b validEnd 500) →
      ((startScan data len validEnd maxStartIndex i b s).2 = -1 ∨
        (∃ j, (startScan data len validEnd maxStartIndex i b s).1 =
            findZeroCrossing data len j 100) ∧
          (startScan data len validEnd maxStartIndex i b s).1 < maxStartIndex ∧
          (startScan data len validEnd maxStartIndex i b s).2 =
            calculateCorrelation data len
              (startScan data len validEnd maxStartIndex i b s).1 validEnd 500) := by
  intro n
  induction n with
  | zero =>
    intro i b s hn hinv
    rw [startScan, dif_neg (by omega)]
    exact hinv
  | succ n ih =>
    intro i b s hn hinv
    rw [startScan]
    by_cases hi : i < maxStartIndex
    · rw [dif_pos hi]
      have hstep : 10 ≤ max 10 (validEnd / 100) := le_max_left _ _
      by_cases hskip : maxStartIndex ≤ findZeroCrossing data len i 100
      · simp only [if_pos hskip]
        exact ih _ b s (by omega) hinv
      · simp only [if_neg hskip]
        by_cases hbetter :
            s < calculateCorrelation data len (findZeroCrossing data len i 100) validEnd 500
        · rw [if_pos hbetter]
          exact ih _ _ _ (by omega) (Or.inr ⟨⟨i, rfl⟩, by omega, rfl⟩)
        · rw [if_neg hbetter]
          exact ih _ b s (by omega) hinv
    · rw [dif_neg hi]
      exact hinv

/-! Membership characterization for detectLoopPoints. -/

/-- Everything a point returned by detectLoopPoints satisfies, tied to the
probed end region it came from. -/
def Accepted (data : Nat → ℚ) (len : Nat) (p : LoopPoint) : Prop :=
  ∃ t ∈ candidateEndRegions len,
    p.«end» = findZeroCrossing data len t 2000 ∧
    22050 ≤ p.«end» ∧
    (∃ j, p.start = findZeroCrossing data len j 100) ∧
    p.start < p.«end» - 1000 ∧
    60 < calculateCorrelation data len p.start p.«end» 500 ∧
    p.score = jsRound (calculateCorrelation data len p.start p.«end» 500)

set_option maxRecDepth 4000 in
lemma processRegion_mem (data : Nat → ℚ) (len : Nat) (acc : List LoopPoint × Nat)
    (t : Nat) (ht : t ∈ candidateEndRegions len) (p : LoopPoint)
    (hp : p ∈ (processRegion data len acc t).1) :
    p ∈ acc.1 ∨ Accepted data len p := by
  unfold processRegion at hp
  by_cases hsmall : findZeroCrossing data len t 2000 < 22050
  · rw [if_pos hsmall] at hp
    exact Or.inl hp
  · rw [if_neg hsmall] at hp
    set validEnd := findZeroCrossing data len t 2000 with hVE
    by_cases hscore : 60 < (startScan data len validEnd (validEnd - 1000) 0 0 (-1)).2
    · rw [if_pos hscore] at hp
      rcases List.mem_append.mp hp with h | h
      · exact Or.inl h
      · have hchar := startScan_char data len validEnd (validEnd - 1000)
          (validEnd - 1000) 0 0 (-1) (by omega) (Or.inl rfl)
        rcases hchar with hneg | ⟨⟨j, hj⟩, hlt, hcorr⟩
        · rw [hneg] at hscore; norm_num at hscore
        · rcases List.mem_singleton.mp h with rfl
          right
          unfold Accepted
          refine ⟨t, ht, ?_, ?_, ?_, ?_, ?_, ?_⟩
          · rw [mkPoint_end]
          · rw [mkPoint_end]
            omega
          · rw [mkPoint_start]
            exact ⟨j, hj⟩
          · rw [mkPoint_start, mkPoint_end]
            exact hlt
          · rw [mkPoint_start, mkPoint_end, ← hcorr]
            exact hscore
          · rw [mkPoint_score, mkPoint_start, mkPoint_end, ← hcorr]
    · rw [if_neg hscore] at hp
      exact Or.inl hp

lemma detect_mem_accepted (buffer : AudioBuffer) (p : LoopPoint)
    (hp : p ∈ detectLoopPoints buffer) :
    Accepted (buffer.channelData 0) buffer.length p := by
  unfold detectLoopPoints at hp
  have hp2 : p ∈ ((candidateEndRegions buffer.length).foldl
      (processRegion (buffer.channelData 0) buffer.length) ([], 1)).1 :=
    List.mem_mergeSort.mp (List.mem_of_mem_take hp)
  have hfold := foldl_inv
    (P := fun acc : List LoopPoint × Nat =>
      ∀ q ∈ acc.1, Accepted (buffer.channelData 0) buffer.length q)
    (processRegion (buffer.channelData 0) buffer.length)
    (candidateEndRegions buffer.length) ([], 1)
    (by intro q hq; simp at hq)
    (by
      intro acc t ht hacc q hq
      rcases processRegion_mem _ _ acc t ht q hq with h | h
      · exact hacc q h
      · exact h)
  exact hfold p hp2

/-- Each retained end region target exceeds 1000 and is one of len - 100,
3 len / 4, len / 2; in particular it is at most len - 1 and at most len. -/
lemma candidateEndRegions_mem (len t : Nat) (ht : t ∈ candidateEndRegions len) :
    1000 < t ∧ t ≤ len - 1 ∧
      (t = len - 100 ∨ t = 3 * len / 4 ∨ t = len / 2) := by
  unfold candidateEndRegions at ht
  rw [List.mem_filter] at ht
  obtain ⟨hmem, hgt⟩ := ht
  have hgt' : 1000 < t := by simpa using hgt
  simp only [List.mem_cons, List.not_mem_nil, or_false] at hmem
  rcases hmem with rfl | rfl | rfl
  · exact ⟨hgt', by omega, Or.inl rfl⟩
  · exact ⟨hgt', by omega, Or.inr (Or.inl rfl)⟩
  · exact ⟨hgt', by omega, Or.inr (Or.inr rfl)⟩

/-! Concrete evaluation on the two-second 44100 Hz pure-silence buffer. -/

/-- The 2-second, 44100 Hz, mono buffer whose samples are all 0.0. -/
def silence : AudioBuffer := ⟨1, 44100, 88200, fun _ _ => 0⟩

lemma regions_88200 : candidateEndRegions 88200 = [88100, 66150, 44100] := rfl

lemma jsRound_100 : jsRound (100 : ℚ) = 100 := by norm_num [jsRound]

/-- Fold one list element, supplying the step result as an equation; this
keeps every rewrite a pattern rewrite so nothing forces evaluation of the
detector on a large window. -/
lemma foldl_cons_eq {α β : Type} (f : β → α → β) (b : β) (a : α) (l : List α)
    (c : β) (h1 : f b a = c) :
    (a :: l).foldl f b = l.foldl f c := by
  rw [List.foldl_cons, h1]

lemma silence_scan_88100 :
    startScan (fun _ => (0 : ℚ)) 88200 88100 87100 0 0 (-1) = (0, 0) := by
  rw [startScan]
  norm_num [findZeroCrossing_zero, calculateCorrelation_zero]
  exact startScan_const _ 88200 88100 87100 0
    (fun c => by rw [calculateCorrelation_zero]; norm_num) 87100 _ 0 (by omega)

lemma silence_scan_66150 :
    startScan (fun _ => (0 : ℚ)) 88200 66150 65150 0 0 (-1) = (0, 100) := by
  rw [startScan]
  norm_num [findZeroCrossing_zero, calculateCorrelation_zero]
  exact startScan_const _ 88200 66150 65150 100
    (fun c => calculateCorrelation_le_100 _ _ _ _ _) 65150 _ 0 (by omega)

lemma silence_scan_44100 :
    startScan (fun _ => (0 : ℚ)) 88200 44100 43100 0 0 (-1) = (0, 100) := by
  rw [startScan]
  norm_num [findZeroCrossing_zero, calculateCorrelation_zero]
  exact startScan_const _ 88200 44100 43100 100
    (fun c => calculateCorrelation_le_100 _ _ _ _ _) 43100 _ 0 (by omega)

/-- The end region probed at frameCount - 100 is rejected on silence: its
correlation windows run past the buffer, so every candidate scores 0, below
the threshold 60. -/
lemma silence_region_88100 :
    processRegion (fun _ => (0 : ℚ)) 88200 ([], 1) 88100 = ([], 1) := by
  unfold processRegion
  norm_num [findZeroCrossing_zero, silence_scan_88100]

lemma silence_region_66150 :
    processRegion (fun _ => (0 : ℚ)) 88200 ([], 1) 66150 =
      ([mkPoint 1 0 66150 100], 2) := by
  unfold processRegion
  norm_num [findZeroCrossing_zero, silence_scan_66150]

lemma silence_region_44100 :
    processRegion (fun _ => (0 : ℚ)) 88200 ([mkPoint 1 0 66150 100], 2) 44100 =
      ([mkPoint 1 0 66150 100, mkPoint 2 0 44100 100], 3) := by
  unfold processRegion
  norm_num [findZeroCrossing_zero, silence_scan_44100]

lemma silence_fold :
    [88100, 66150, 44100].foldl (processRegion (fun _ => (0 : ℚ)) 88200) ([], 1) =
      ([mkPoint 1 0 66150 100, mkPoint 2 0 44100 100], 3) := by
  rw [foldl_cons_eq _ _ _ _ _ silence_region_88100,
      foldl_cons_eq _ _ _ _ _ silence_region_66150,
      foldl_cons_eq _ _ _ _ _ silence_region_44100,
      List.foldl_nil]

lemma detect_silence_eq :
    detectLoopPoints silence = [mkPoint 1 0 66150 100, mkPoint 2 0 44100 100] := by
  unfold detectLoopPoints
  rw [show silence.length = 88200 from rfl,
      show silence.channelData 0 = (fun _ => (0 : ℚ)) from rfl,
      regions_88200, silence_fold]
  rw [List.mergeSort_of_sorted]
  · rfl
  · constructor
    · intro b hb
      rcases List.mem_singleton.mp hb with rfl
      rw [mkPoint_score, mkPoint_score, jsRound_100]
      rfl
    · constructor
      · intro b hb
        exact absurd hb (List.not_mem_nil b)
      · constructor

lemma mkPoint1_eq : mkPoint 1 0 66150 100 = ⟨1, 0, 66150, 100, "Auto Loop 2"⟩ := by
  unfold mkPoint
  rw [jsRound_100]
  rfl

lemma mkPoint2_eq : mkPoint 2 0 44100 100 = ⟨2, 0, 44100, 100, "Auto Loop 3"⟩ := by
  unfold mkPoint
  rw [jsRound_100]
  rfl

/-- The silence result with the records fully evaluated. -/
lemma detect_silence_explicit :
    detectLoopPoints silence =
      [⟨1, 0, 66150, 100, "Auto Loop 2"⟩, ⟨2, 0, 44100, 100, "Auto Loop 3"⟩] := by
  rw [detect_silence_eq, mkPoint1_eq, mkPoint2_eq]

/-- A score strictly between 60 and 100 rounds to an integer in [0, 100]. -/
lemma jsRound_bounds (q : ℚ) (h60 : 60 < q) (h100 : q ≤ 100) :
    0 ≤ jsRound q ∧ jsRound q ≤ 100 := by
  unfold jsRound
  constructor
  · apply Int.le_floor.mpr
    push_cast
    linarith
  · have h1 : ⌊q + 1 / 2⌋ ≤ ⌊(100 : ℚ) + 1 / 2⌋ := Int.floor_le_floor (by linarith)
    have h2 : ⌊(100 : ℚ) + 1 / 2⌋ = 100 := by norm_num
    omega

/-! Claim theorems for the loop-point detector. -/

/-- C4: every candidate returned by detectLoopPoints satisfies
0 ≤ start < end ≤ frameCount - 1, end - start ≥ 1000 (in fact > 1000), and
carries an integer confidence score in the range 0-100 (start ≥ 0 holds by
the natural-number index type). -/
theorem C4_candidate_invariants (buffer : AudioBuffer) (p : LoopPoint)
    (hp : p ∈ detectLoopPoints buffer) :
    p.start < p.«end» ∧ p.«end» ≤ buffer.length - 1 ∧
      1000 ≤ p.«end» - p.start ∧ 0 ≤ p.score ∧ p.score ≤ 100 := by
  obtain ⟨t, ht, hend, h22050, _, hlt, hcorr, hscore⟩ := detect_mem_accepted buffer p hp
  obtain ⟨hgt, hle, _⟩ := candidateEndRegions_mem _ _ ht
  have hfz := findZeroCrossing_le (buffer.channelData 0) buffer.length t 2000
  have h100 := calculateCorrelation_le_100 (buffer.channelData 0) buffer.length
    p.start p.«end» 500
  have hb := jsRound_bounds _ hcorr h100
  refine ⟨by omega, by omega, by omega, ?_, ?_⟩
  · rw [hscore]; exact hb.1
  · rw [hscore]; exact hb.2

/-- C4 witness: the top silence candidate satisfies the invariants. -/
theorem C4_witness :
    (⟨1, 0, 66150, 100, "Auto Loop 2"⟩ : LoopPoint).start <
        (⟨1, 0, 66150, 100, "Auto Loop 2"⟩ : LoopPoint).«end» ∧
      (⟨1, 0, 66150, 100, "Auto Loop 2"⟩ : LoopPoint).«end» ≤ silence.length - 1 ∧
      1000 ≤ (⟨1, 0, 66150, 100, "Auto Loop 2"⟩ : LoopPoint).«end» -
        (⟨1, 0, 66150, 100, "Auto Loop 2"⟩ : LoopPoint).start ∧
      0 ≤ (⟨1, 0, 66150, 100, "Auto Loop 2"⟩ : LoopPoint).score ∧
      (⟨1, 0, 66150, 100, "Auto Loop 2"⟩ : LoopPoint).score ≤ 100 :=
  C4_candidate_invariants silence ⟨1, 0, 66150, 100, "Auto Loop 2"⟩
    (by rw [detect_silence_explicit]; exact List.mem_cons_self _ _)

/-- C10: any returned candidate has end + 500 < frameCount, because a pair
whose 500-sample end window would run past the buffer scores 0, below the
acceptance threshold of 60. -/
theorem C10_end_window_fits (buffer : AudioBuffer) (p : LoopPoint)
    (hp : p ∈ detectLoopPoints buffer) :
    p.«end» + 500 < buffer.length := by
  obtain ⟨t, ht, hend, h22050, _, hlt, hcorr, hscore⟩ := detect_mem_accepted buffer p hp
  have hb := calculateCorrelation_pos_bounds (buffer.channelData 0) buffer.length
    p.start p.«end» 500 (by linarith)
  exact hb.2

/-- C10 witness: the top silence candidate ends more than 500 samples before
the end of the buffer. -/
theorem C10_witness :
    (⟨1, 0, 66150, 100, "Auto Loop 2"⟩ : LoopPoint).«end» + 500 < silence.length :=
  C10_end_window_fits silence ⟨1, 0, 66150, 100, "Auto Loop 2"⟩
    (by rw [detect_silence_explicit]; exact List.mem_cons_self _ _)

/-- C2 counterexample: on the silence buffer the returned candidate
(start 0, end 66150) has neither offset at a sign change, because a
constant-zero signal has no sign change anywhere; findZeroCrossing fell back
to the probed positions themselves. -/
theorem C2_counterexample :
    (⟨1, 0, 66150, 100, "Auto Loop 2"⟩ : LoopPoint) ∈ detectLoopPoints silence ∧
      ¬ isCrossing (silence.channelData 0) 0 ∧
      ¬ isCrossing (silence.channelData 0) 66150 := by
  refine ⟨?_, ?_, ?_⟩
  · rw [detect_silence_explicit]
    exact List.mem_cons_self _ _
  · show ¬ isCrossing (fun _ => (0 : ℚ)) 0
    unfold isCrossing
    norm_num
  · show ¬ isCrossing (fun _ => (0 : ℚ)) 66150
    unfold isCrossing
    norm_num

/-- C2 amended: each returned offset is the zero-crossing snap of some probed
position within the bounded window (2000 for the end, 100 for the start), and
is itself either a genuine zero-crossing sample or, when the window holds no
crossing, exactly the probed position. -/
theorem C2_offsets_snapped (buffer : AudioBuffer) (p : LoopPoint)
    (hp : p ∈ detectLoopPoints buffer) :
    (∃ t ∈ candidateEndRegions buffer.length,
        p.«end» = findZeroCrossing (buffer.channelData 0) buffer.length t 2000 ∧
        (isCrossing (buffer.channelData 0) p.«end» ∨ p.«end» = t)) ∧
    (∃ j, p.start = findZeroCrossing (buffer.channelData 0) buffer.length j 100 ∧
        (isCrossing (buffer.channelData 0) p.start ∨ p.start = j)) := by
  obtain ⟨t, ht, hend, _, ⟨j, hj⟩, _, _, _⟩ := detect_mem_accepted buffer p hp
  constructor
  · refine ⟨t, ht, hend, ?_⟩
    rcases findZeroCrossing_spec (buffer.channelData 0) buffer.length t 2000 with h | ⟨hc, _, _⟩
    · right; rw [hend, h]
    · left; rw [hend]; exact hc
  · refine ⟨j, hj, ?_⟩
    rcases findZeroCrossing_spec (buffer.channelData 0) buffer.length j 100 with h | ⟨hc, _, _⟩
    · right; rw [hj, h]
    · left; rw [hj]; exact hc

/-- C2 amended witness: instantiated on the silence buffer's top candidate. -/
theorem C2_witness :
    (∃ t ∈ candidateEndRegions silence.length,
        (⟨1, 0, 66150, 100, "Auto Loop 2"⟩ : LoopPoint).«end» =
          findZeroCrossing (silence.channelData 0) silence.length t 2000 ∧
        (isCrossing (silence.channelData 0)
            (⟨1, 0, 66150, 100, "Auto Loop 2"⟩ : LoopPoint).«end» ∨
          (⟨1, 0, 66150, 100, "Auto Loop 2"⟩ : LoopPoint).«end» = t)) ∧
    (∃ j, (⟨1, 0, 66150, 100, "Auto Loop 2"⟩ : LoopPoint).start =
        findZeroCrossing (silence.channelData 0) silence.length j 100 ∧
        (isCrossing (silence.channelData 0)
            (⟨1, 0, 66150, 100, "Auto Loop 2"⟩ : LoopPoint).start ∨
          (⟨1, 0, 66150, 100, "Auto Loop 2"⟩ : LoopPoint).start = j)) :=
  C2_offsets_snapped silence ⟨1, 0, 66150, 100, "Auto Loop 2"⟩
    (by rw [detect_silence_explicit]; exact List.mem_cons_self _ _)

/-- C1 counterexample: on the 2-second silence buffer no returned candidate
ends at 88100 = frameCount - 100 (the snapped probe position of the top end
region); the returned ends are 66150 and 44100. -/
theorem C1_counterexample :
    (detectLoopPoints silence).map (fun p => p.«end») = [66150, 44100] ∧
      ¬ ∃ p ∈ detectLoopPoints silence, p.«end» = 88100 := by
  rw [detect_silence_explicit]
  refine ⟨rfl, ?_⟩
  rintro ⟨p, hp, he⟩
  simp only [List.mem_cons, List.not_mem_nil, or_false] at hp
  rcases hp with rfl | rfl
  · exact absurd he (by decide)
  · exact absurd he (by decide)

/-- C1 amended: on the 2-second, 44100 Hz silence buffer the snap positions
are the probe positions themselves (no sign change exists), in-bounds flat
windows score exactly 100, but the end region near frameCount - 100 is
rejected because its correlation window runs past the buffer and scores 0;
the accepted candidates are the 75% and 50% probes, both with score 100. -/
theorem C1_silence_result :
    detectLoopPoints silence =
      [⟨1, 0, 66150, 100, "Auto Loop 2"⟩, ⟨2, 0, 44100, 100, "Auto Loop 3"⟩] :=
  detect_silence_explicit

/-- C7: a buffer shorter than the 22050-sample floor yields no candidates;
the detector is a total function, so no exception is possible and the empty
list represents the absence of a loop. -/
theorem C7_short_buffer_empty (buffer : AudioBuffer) (h : buffer.length < 22050) :
    detectLoopPoints buffer = [] := by
  unfold detectLoopPoints
  have hfold : ((candidateEndRegions buffer.length).foldl
      (processRegion (buffer.channelData 0) buffer.length) ([], 1)) = ([], 1) := by
    apply foldl_fixed
    intro b t ht
    obtain ⟨hgt, hle, _⟩ := candidateEndRegions_mem _ _ ht
    have hv := findZeroCrossing_le (buffer.channelData 0) buffer.length t 2000
    have hvlt : findZeroCrossing (buffer.channelData 0) buffer.length t 2000 < 22050 := by
      omega
    unfold processRegion
    rw [if_pos hvlt]
  rw [hfold, show (Prod.mk ([] : List LoopPoint) 1).1 = ([] : List LoopPoint) from rfl,
    List.mergeSort_nil]
  rfl

/-- C7 witness: a 5-frame buffer yields the empty list. -/
theorem C7_witness :
    (5 : Nat) < 22050 ∧ detectLoopPoints ⟨1, 44100, 5, fun _ _ => 0⟩ = [] :=
  ⟨by norm_num, C7_short_buffer_empty ⟨1, 44100, 5, fun _ _ => 0⟩ (by norm_num)⟩

/-- C9: the returned sequence is sorted by non-increasing score and has at
most 3 elements. -/
theorem C9_sorted_top3 (buffer : AudioBuffer) :
    List.Sorted (fun a b : LoopPoint => b.score ≤ a.score) (detectLoopPoints buffer) ∧
      (detectLoopPoints buffer).length ≤ 3 := by
  constructor
  · unfold detectLoopPoints
    have hs := @List.sorted_mergeSort LoopPoint
      (fun a b : LoopPoint => decide (b.score ≤ a.score))
      (by
        intro a b c hab hbc
        simp only [decide_eq_true_eq] at hab hbc ⊢
        omega)
      (by
        intro a b
        simp only [Bool.or_eq_true, decide_eq_true_eq]
        omega)
      ((candidateEndRegions buffer.length).foldl
        (processRegion (buffer.channelData 0) buffer.length) ([], 1)).1
    have htake := List.Pairwise.sublist (List.take_sublist 3 _) hs
    exact htake.imp (fun h => of_decide_eq_true h)
  · unfold detectLoopPoints
    rw [List.length_take]
    omega

/-! Byte-level infrastructure for the WAV writer proofs. -/

lemma getD_append_lt (l m : List Nat) (k d : Nat) (h : k < l.length) :
    (l ++ m).getD k d = l.getD k d := by
  simp only [List.getD_eq_getElem?_getD, List.getElem?_append_left h]

lemma getD_append_add (l m : List Nat) (k d : Nat) :
    (l ++ m).getD (l.length + k) d = m.getD k d := by
  simp only [List.getD_eq_getElem?_getD,
    List.getElem?_append_right (Nat.le_add_right l.length k), Nat.add_sub_cancel_left]

lemma readU16_append (l m : List Nat) (k : Nat) :
    readU16 (l ++ m) (l.length + k) = readU16 m k := by
  unfold readU16
  rw [show l.length + k + 1 = l.length + (k + 1) from by omega,
    getD_append_add, getD_append_add]

lemma readU32_append (l m : List Nat) (k : Nat) :
    readU32 (l ++ m) (l.length + k) = readU32 m k := by
  unfold readU32
  rw [show l.length + k + 1 = l.length + (k + 1) from by omega,
    show l.length + k + 2 = l.length + (k + 2) from by omega,
    show l.length + k + 3 = l.length + (k + 3) from by omega,
    getD_append_add, getD_append_add, getD_append_add, getD_append_add]

lemma readU16_skip (l m : List Nat) (n k : Nat) (h : l.length = n) :
    readU16 (l ++ m) (n + k) = readU16 m k := by
  rw [show n + k = l.length + k from by rw [h], readU16_append]

lemma readU32_skip (l m : List Nat) (n k : Nat) (h : l.length = n) :
    readU32 (l ++ m) (n + k) = readU32 m k := by
  rw [show n + k = l.length + k from by rw [h], readU32_append]

/-- Decoding the four bytes written by setUint32 recovers a value below
2^32 exactly. -/
lemma readU32_u32le (n : Nat) (m : List Nat) (h : n < 4294967296) :
    readU32 (u32le n ++ m) 0 = n := by
  have e : readU32 (u32le n ++ m) 0 =
      n % 256 + 256 * (n / 256 % 256) + 65536 * (n / 65536 % 256) +
        16777216 * (n / 16777216 % 256) := rfl
  rw [e]
  omega

/-- Decoding the two bytes written by setUint16 recovers a value below
2^16 exactly. -/
lemma readU16_u16le (n : Nat) (m : List Nat) (h : n < 65536) :
    readU16 (u16le n ++ m) 0 = n := by
  have e : readU16 (u16le n ++ m) 0 = n % 256 + 256 * (n / 256 % 256) := rfl
  rw [e]
  omega

lemma readU16_pair (a b : Nat) : readU16 [a, b] 0 = a + 256 * b := rfl

set_option maxHeartbeats 1000000 in
/-- The header block is 44 bytes. -/
lemma wavHeader_length (buffer : AudioBuffer) (b : Bool) :
    (wavHeader buffer b).length = 44 := rfl

set_option maxHeartbeats 1000000 in
/-- The smpl chunk is 68 bytes. -/
lemma smplChunk_length (r : Nat) (lp : LoopPoint) : (smplChunk r lp).length = 68 := rfl

lemma flatMap_length_two (f : Nat → List Nat) (hf : ∀ k, (f k).length = 2) :
    ∀ l : List Nat, (l.flatMap f).length = 2 * l.length := by
  intro l
  induction l with
  | nil => rfl
  | cons x xs ih =>
    rw [List.flatMap_cons, List.length_append, ih, hf x, List.length_cons]
    omega

lemma pcmData_length (buffer : AudioBuffer) :
    (pcmData buffer).length = 2 * (buffer.length * buffer.numberOfChannels) := by
  have h := flatMap_length_two
    (fun k => int16Bytes (encodeSample
      (buffer.channelData (k % buffer.numberOfChannels) (k / buffer.numberOfChannels))))
    (fun k => rfl)
    (List.range (buffer.length * buffer.numberOfChannels))
  unfold pcmData
  rw [h, List.length_range]

lemma export_some_eq (buffer : AudioBuffer) (lp : LoopPoint) :
    exportWavWithSmpl buffer (some lp) =
      wavHeader buffer true ++ pcmData buffer ++ smplChunk buffer.sampleRate lp := rfl

lemma export_none_eq (buffer : AudioBuffer) :
    exportWavWithSmpl buffer none = wavHeader buffer false ++ pcmData buffer := by
  unfold exportWavWithSmpl
  rw [show (match (none : Option LoopPoint) with
      | none => ([] : List Nat)
      | some lp => smplChunk buffer.sampleRate lp) = [] from rfl,
    List.append_nil]
  rfl

lemma export_length_some (buffer : AudioBuffer) (lp : LoopPoint) :
    (exportWavWithSmpl buffer (some lp)).length =
      112 + buffer.length * buffer.numberOfChannels * 2 := by
  rw [export_some_eq, List.length_append, List.length_append, wavHeader_length,
    smplChunk_length, pcmData_length]
  omega

lemma export_length_none (buffer : AudioBuffer) :
    (exportWavWithSmpl buffer none).length =
      44 + buffer.length * buffer.numberOfChannels * 2 := by
  rw [export_none_eq, List.length_append, wavHeader_length, pcmData_length]
  omega

/-! Skipping fixed-width fields while reading. -/

lemma readU32_skip4 (x : Nat) (m : List Nat) (k : Nat) :
    readU32 (u32le x ++ m) (4 + k) = readU32 m k :=
  readU32_skip (u32le x) m 4 k rfl

lemma readU32_skip2 (x : Nat) (m : List Nat) (k : Nat) :
    readU32 (u16le x ++ m) (2 + k) = readU32 m k :=
  readU32_skip (u16le x) m 2 k rfl

lemma readU32_skipTag (s : String) (m : List Nat) (k : Nat)
    (h : (writeString s).length = 4) :
    readU32 (writeString s ++ m) (4 + k) = readU32 m k :=
  readU32_skip (writeString s) m 4 k h

lemma readU16_skip4 (x : Nat) (m : List Nat) (k : Nat) :
    readU16 (u32le x ++ m) (4 + k) = readU16 m k :=
  readU16_skip (u32le x) m 4 k rfl

lemma readU16_skip2 (x : Nat) (m : List Nat) (k : Nat) :
    readU16 (u16le x ++ m) (2 + k) = readU16 m k :=
  readU16_skip (u16le x) m 2 k rfl

lemma readU16_skipTag (s : String) (m : List Nat) (k : Nat)
    (h : (writeString s).length = 4) :
    readU16 (writeString s ++ m) (4 + k) = readU16 m k :=
  readU16_skip (writeString s) m 4 k h

/-- The loop start field sits 52 bytes into the smpl chunk and holds
lp.start (mod 2^32, exact below 2^32). -/
lemma readU32_smpl_start (r : Nat) (lp : LoopPoint) (h : lp.start < 4294967296) :
    readU32 (smplChunk r lp) 52 = lp.start := by
  unfold smplChunk
  simp only [List.append_assoc]
  rw [show (52 : Nat) = 4 + 48 from rfl, readU32_skipTag "smpl" _ _ rfl,
    show (48 : Nat) = 4 + 44 from rfl, readU32_skip4,
    show (44 : Nat) = 4 + 40 from rfl, readU32_skip4,
    show (40 : Nat) = 4 + 36 from rfl, readU32_skip4,
    show (36 : Nat) = 4 + 32 from rfl, readU32_skip4,
    show (32 : Nat) = 4 + 28 from rfl, readU32_skip4,
    show (28 : Nat) = 4 + 24 from rfl, readU32_skip4,
    show (24 : Nat) = 4 + 20 from rfl, readU32_skip4,
    show (20 : Nat) = 4 + 16 from rfl, readU32_skip4,
    show (16 : Nat) = 4 + 12 from rfl, readU32_skip4,
    show (12 : Nat) = 4 + 8 from rfl, readU32_skip4,
    show (8 : Nat) = 4 + 4 from rfl, readU32_skip4,
    show (4 : Nat) = 4 + 0 from rfl, readU32_skip4,
    readU32_u32le _ _ h]

/-- The loop end field sits 56 bytes into the smpl chunk and holds lp.end. -/
lemma readU32_smpl_end (r : Nat) (lp : LoopPoint) (h : lp.«end» < 4294967296) :
    readU32 (smplChunk r lp) 56 = lp.«end» := by
  unfold smplChunk
  simp only [List.append_assoc]
  rw [show (56 : Nat) = 4 + 52 from rfl, readU32_skipTag "smpl" _ _ rfl,
    show (52 : Nat) = 4 + 48 from rfl, readU32_skip4,
    show (48 : Nat) = 4 + 44 from rfl, readU32_skip4,
    show (44 : Nat) = 4 + 40 from rfl, readU32_skip4,
    show (40 : Nat) = 4 + 36 from rfl, readU32_skip4,
    show (36 : Nat) = 4 + 32 from rfl, readU32_skip4,
    show (32 : Nat) = 4 + 28 from rfl, readU32_skip4,
    show (28 : Nat) = 4 + 24 from rfl, readU32_skip4,
    show (24 : Nat) = 4 + 20 from rfl, readU32_skip4,
    show (20 : Nat) = 4 + 16 from rfl, readU32_skip4,
    show (16 : Nat) = 4 + 12 from rfl, readU32_skip4,
    show (12 : Nat) = 4 + 8 from rfl, readU32_skip4,
    show (8 : Nat) = 4 + 4 from rfl, readU32_skip4,
    show (4 : Nat) = 4 + 0 from rfl, readU32_skip4,
    readU32_u32le _ _ h]

/-- The channel count field sits at byte offset 22 of the header. -/
lemma readU16_header_channels (buffer : AudioBuffer) (b : Bool)
    (h : buffer.numberOfChannels < 65536) :
    readU16 (wavHeader buffer b) 22 = buffer.numberOfChannels := by
  simp only [wavHeader, List.append_assoc]
  rw [show (22 : Nat) = 4 + 18 from rfl, readU16_skipTag "RIFF" _ _ rfl,
    show (18 : Nat) = 4 + 14 from rfl, readU16_skip4,
    show (14 : Nat) = 4 + 10 from rfl, readU16_skipTag "WAVE" _ _ rfl,
    show (10 : Nat) = 4 + 6 from rfl, readU16_skipTag "fmt " _ _ rfl,
    show (6 : Nat) = 4 + 2 from rfl, readU16_skip4,
    show (2 : Nat) = 2 + 0 from rfl, readU16_skip2,
    readU16_u16le _ _ h]

/-- The sample rate field sits at byte offset 24 of the header. -/
lemma readU32_header_rate (buffer : AudioBuffer) (b : Bool)
    (h : buffer.sampleRate < 4294967296) :
    readU32 (wavHeader buffer b) 24 = buffer.sampleRate := by
  simp only [wavHeader, List.append_assoc]
  rw [show (24 : Nat) = 4 + 20 from rfl, readU32_skipTag "RIFF" _ _ rfl,
    show (20 : Nat) = 4 + 16 from rfl, readU32_skip4,
    show (16 : Nat) = 4 + 12 from rfl, readU32_skipTag "WAVE" _ _ rfl,
    show (12 : Nat) = 4 + 8 from rfl, readU32_skipTag "fmt " _ _ rfl,
    show (8 : Nat) = 4 + 4 from rfl, readU32_skip4,
    show (4 : Nat) = 2 + 2 from rfl, readU32_skip2,
    show (2 : Nat) = 2 + 0 from rfl, readU32_skip2,
    readU32_u32le _ _ h]

/-! Sample quantization analysis. -/

/-- For an in-range sample the clamp is the identity; the stored 16-bit value
is the floor-truncated scaled sample and lies in [-32768, 32767], so the
Int16Array wrap is the identity. -/
lemma encodeSample_spec (q : ℚ) (h1 : -1 ≤ q) (h2 : q ≤ 1) :
    encodeSample q = (if q < 0 then -⌊-(q * 32768)⌋ else ⌊q * 32767⌋) ∧
      -32768 ≤ encodeSample q ∧ encodeSample q ≤ 32767 := by
  have hs : max (-1) (min 1 q) = q := by rw [min_eq_right h2, max_eq_right h1]
  unfold encodeSample
  rw [hs]
  dsimp only
  by_cases hneg : q < 0
  · rw [if_pos hneg, if_pos hneg]
    have hx2 : q * 32768 < 0 := mul_neg_of_neg_of_pos hneg (by norm_num)
    have hf1 : 0 ≤ ⌊-(q * 32768)⌋ := Int.floor_nonneg.mpr (by linarith)
    have hf2 : ⌊-(q * 32768)⌋ ≤ 32768 := by
      have hle := Int.floor_le (-(q * 32768))
      have : (⌊-(q * 32768)⌋ : ℚ) ≤ 32768 := le_trans hle (by linarith)
      exact_mod_cast this
    unfold toInt16 jsTrunc
    rw [if_pos hx2]
    omega
  · rw [if_neg hneg, if_neg hneg]
    have hx0 : 0 ≤ q * 32767 := mul_nonneg (not_lt.mp hneg) (by norm_num)
    have hf1 : 0 ≤ ⌊q * 32767⌋ := Int.floor_nonneg.mpr hx0
    have hf2 : ⌊q * 32767⌋ ≤ 32767 := by
      have hle := Int.floor_le (q * 32767)
      have : (⌊q * 32767⌋ : ℚ) ≤ 32767 := le_trans hle (by linarith)
      exact_mod_cast this
    unfold toInt16 jsTrunc
    rw [if_neg (not_lt.mpr hx0)]
    omega

/-- Decoding the stored 16-bit value recovers the clamped sample up to one
16-bit quantization step. -/
lemma decode_bound (q : ℚ) (h1 : -1 ≤ q) (h2 : q ≤ 1) :
    |decodeSample (encodeSample q) - q| ≤ 1 / 32767 := by
  obtain ⟨heq, _, _⟩ := encodeSample_spec q h1 h2
  rw [heq]
  by_cases hneg : q < 0
  · rw [if_pos hneg]
    have hf1 : 0 ≤ ⌊-(q * 32768)⌋ := Int.floor_nonneg.mpr (by nlinarith)
    have hle := Int.floor_le (-(q * 32768))
    have hlt := Int.lt_floor_add_one (-(q * 32768))
    rcases eq_or_lt_of_le hf1 with hzero | hpos
    · rw [← hzero]
      unfold decodeSample
      norm_num
      rw [abs_of_nonpos (le_of_lt hneg)]
      rw [← hzero] at hlt
      push_cast at hlt
      have h32 : (1 : ℚ) / 32768 ≤ 1 / 32767 := by norm_num
      linarith
    · unfold decodeSample
      rw [if_pos (by omega : (-⌊-(q * 32768)⌋ : Int) < 0)]
      have e : ((-⌊-(q * 32768)⌋ : Int) : ℚ) / 32768 - q =
          ((-⌊-(q * 32768)⌋ : Int) - 32768 * q) / 32768 := by
        push_cast
        ring
      rw [e, abs_div, abs_of_pos (by norm_num : (0 : ℚ) < 32768)]
      have habs : |((-⌊-(q * 32768)⌋ : Int) : ℚ) - 32768 * q| ≤ 1 := by
        rw [abs_le]
        constructor
        · push_cast
          linarith
        · push_cast
          linarith

      calc |((-⌊-(q * 32768)⌋ : Int) : ℚ) - 32768 * q| / 32768
          ≤ 1 / 32768 := by
            exact (div_le_div_iff_of_pos_right (by norm_num)).mpr habs
        _ ≤ 1 / 32767 := by norm_num
  · rw [if_neg hneg]
    have hx0 : 0 ≤ q * 32767 := mul_nonneg (not_lt.mp hneg) (by norm_num)
    have hf1 : 0 ≤ ⌊q * 32767⌋ := Int.floor_nonneg.mpr hx0
    have hle := Int.floor_le (q * 32767)
    have hlt := Int.lt_floor_add_one (q * 32767)
    unfold decodeSample
    rw [if_neg (not_lt.mpr (by exact_mod_cast hf1))]
    have e : ((⌊q * 32767⌋ : Int) : ℚ) / 32767 - q =
        ((⌊q * 32767⌋ : Int) - 32767 * q) / 32767 := by
      ring
    rw [e, abs_div, abs_of_pos (by norm_num : (0 : ℚ) < 32767)]
    have habs : |((⌊q * 32767⌋ : Int) : ℚ) - 32767 * q| ≤ 1 := by
      rw [abs_le]
      constructor
      · linarith
      · linarith
    exact (div_le_div_iff_of_pos_right (by norm_num)).mpr habs

/-- Reading 16-bit pairs out of a flatMap of 2-byte lists. -/
lemma flatMap_readU16 (f : Nat → List Nat) (hf : ∀ j, (f j).length = 2) :
    ∀ (n s k : Nat), k < n →
      readU16 ((List.range' s n).flatMap f) (2 * k) = readU16 (f (s + k)) 0 := by
  intro n
  induction n with
  | zero => intro s k hk; omega
  | succ n ih =>
    intro s k hk
    rw [List.range'_succ, List.flatMap_cons]
    cases k with
    | zero =>
      rw [Nat.mul_zero]
      unfold readU16
      rw [getD_append_lt _ _ _ _ (by rw [hf s]; omega),
        getD_append_lt _ _ _ _ (by rw [hf s]; omega)]
      simp only [Nat.add_zero]
    | succ k =>
      rw [show 2 * (k + 1) = 2 + 2 * k from by ring,
        readU16_skip _ _ _ _ (hf s), ih (s + 1) k (by omega),
        show s + 1 + k = s + (k + 1) from by omega]

/-- The 16-bit word at pair index k of the PCM payload is the stored sample
value for frame k / numChannels, channel k % numChannels. -/
lemma pcm_sample_read (buffer : AudioBuffer) (k : Nat)
    (hk : k < buffer.length * buffer.numberOfChannels) :
    readU16 (pcmData buffer) (2 * k) =
      ((encodeSample (buffer.channelData (k % buffer.numberOfChannels)
        (k / buffer.numberOfChannels))) % 65536).toNat := by
  unfold pcmData
  rw [List.range_eq_range',
    flatMap_readU16 (fun j => int16Bytes (encodeSample
      (buffer.channelData (j % buffer.numberOfChannels) (j / buffer.numberOfChannels))))
      (fun j => rfl) _ 0 k hk,
    Nat.zero_add]
  unfold int16Bytes u16le
  rw [readU16_pair]
  omega

lemma readU16_append_left (l m : List Nat) (k : Nat) (h : k + 1 < l.length) :
    readU16 (l ++ m) k = readU16 l k := by
  unfold readU16
  rw [getD_append_lt _ _ _ _ (by omega), getD_append_lt _ _ _ _ h]

lemma readU32_append_left (l m : List Nat) (k : Nat) (h : k + 3 < l.length) :
    readU32 (l ++ m) k = readU32 l k := by
  unfold readU32
  rw [getD_append_lt _ _ _ _ (by omega), getD_append_lt _ _ _ _ (by omega),
    getD_append_lt _ _ _ _ (by omega), getD_append_lt _ _ _ _ h]

/-- Both 32-bit loop fields of the smpl chunk hold exactly the supplied
offsets (which fit in 32 bits). -/
lemma export_fields (buffer : AudioBuffer) (lp : LoopPoint)
    (h1 : lp.start < 4294967296) (h2 : lp.«end» < 4294967296) :
    readU32 (exportWavWithSmpl buffer (some lp))
        (96 + buffer.length * buffer.numberOfChannels * 2) = lp.start ∧
      readU32 (exportWavWithSmpl buffer (some lp))
        (100 + buffer.length * buffer.numberOfChannels * 2) = lp.«end» := by
  have hlen : (wavHeader buffer true ++ pcmData buffer).length =
      44 + buffer.length * buffer.numberOfChannels * 2 := by
    rw [List.length_append, wavHeader_length, pcmData_length]
    omega
  constructor
  · rw [export_some_eq,
      show 96 + buffer.length * buffer.numberOfChannels * 2 =
        (wavHeader buffer true ++ pcmData buffer).length + 52 from by rw [hlen]; omega,
      readU32_append, readU32_smpl_start _ _ h1]
  · rw [export_some_eq,
      show 100 + buffer.length * buffer.numberOfChannels * 2 =
        (wavHeader buffer true ++ pcmData buffer).length + 56 from by rw [hlen]; omega,
      readU32_append, readU32_smpl_end _ _ h2]

/-- A 1-frame, 1-channel buffer with sample 0.0. -/
def demoBuffer : AudioBuffer := ⟨1, 44100, 1, fun _ _ => 0⟩

/-- A 1-frame, 1-channel buffer with sample 1.0. -/
def fullScaleBuffer : AudioBuffer := ⟨1, 44100, 1, fun _ _ => 1⟩

/-- A 1-frame, 1-channel buffer with sample 0.5. -/
def halfBuffer : AudioBuffer := ⟨1, 44100, 1, fun _ _ => 1 / 2⟩

lemma encodeSample_zero : encodeSample 0 = 0 := by
  norm_num [encodeSample, toInt16, jsTrunc]

lemma encodeSample_one : encodeSample 1 = 32767 := by
  norm_num [encodeSample, toInt16, jsTrunc]

lemma pcm_demo : pcmData demoBuffer = [0, 0] := by
  unfold pcmData
  rw [show demoBuffer.length * demoBuffer.numberOfChannels = 1 from rfl,
    show List.range 1 = [0] from rfl]
  simp only [List.flatMap_cons, List.flatMap_nil, List.append_nil]
  rw [show demoBuffer.channelData (0 % demoBuffer.numberOfChannels)
      (0 / demoBuffer.numberOfChannels) = 0 from rfl, encodeSample_zero]
  rfl

lemma pcm_fullScale : pcmData fullScaleBuffer = [255, 127] := by
  unfold pcmData
  rw [show fullScaleBuffer.length * fullScaleBuffer.numberOfChannels = 1 from rfl,
    show List.range 1 = [0] from rfl]
  simp only [List.flatMap_cons, List.flatMap_nil, List.append_nil]
  rw [show fullScaleBuffer.channelData (0 % fullScaleBuffer.numberOfChannels)
      (0 / fullScaleBuffer.numberOfChannels) = 1 from rfl, encodeSample_one]
  rfl

/-- C5: with a loop supplied, the output length is outerSize + 8 for
outerSize = 4 + (8+16) + (8 + frameCount x channels x 2) + (8+60), and the
loop-metadata block's start and end fields hold exactly the candidate's
start and end (both fit the 32-bit fields of the §4.2 layout). -/
theorem C5_layout_and_fields (buffer : AudioBuffer) (lp : LoopPoint)
    (h1 : lp.start < 4294967296) (h2 : lp.«end» < 4294967296) :
    (exportWavWithSmpl buffer (some lp)).length =
        (4 + (8 + 16) + (8 + buffer.length * buffer.numberOfChannels * 2) + (8 + 60)) + 8 ∧
      readU32 (exportWavWithSmpl buffer (some lp))
        (96 + buffer.length * buffer.numberOfChannels * 2) = lp.start ∧
      readU32 (exportWavWithSmpl buffer (some lp))
        (100 + buffer.length * buffer.numberOfChannels * 2) = lp.«end» :=
  ⟨Eq.trans (export_length_some buffer lp) (by omega),
    (export_fields buffer lp h1 h2).1, (export_fields buffer lp h1 h2).2⟩

/-- C5 witness: a 1-frame mono buffer with loop (10, 20). -/
theorem C5_witness :
    (exportWavWithSmpl demoBuffer (some ⟨1, 10, 20, 80, "Loop"⟩)).length =
        (4 + (8 + 16) + (8 + 1 * 1 * 2) + (8 + 60)) + 8 ∧
      readU32 (exportWavWithSmpl demoBuffer (some ⟨1, 10, 20, 80, "Loop"⟩))
        (96 + 1 * 1 * 2) = 10 ∧
      readU32 (exportWavWithSmpl demoBuffer (some ⟨1, 10, 20, 80, "Loop"⟩))
        (100 + 1 * 1 * 2) = 20 :=
  C5_layout_and_fields demoBuffer ⟨1, 10, 20, 80, "Loop"⟩ (by decide) (by decide)

/-- C3 counterexample: exportWavWithSmpl performs no range validation.  For
the 1-frame buffer and the out-of-range loop (start 0, end 5), it still
produces a complete 114-byte file whose loop-end field carries the
out-of-range value 5 instead of rejecting the write. -/
theorem C3_counterexample :
    demoBuffer.length ≤ (⟨1, 0, 5, 90, "X"⟩ : LoopPoint).«end» ∧
      (exportWavWithSmpl demoBuffer (some ⟨1, 0, 5, 90, "X"⟩)).length = 114 ∧
      readU32 (exportWavWithSmpl demoBuffer (some ⟨1, 0, 5, 90, "X"⟩)) 102 = 5 := by
  refine ⟨by decide, Eq.trans (export_length_some _ _) (by decide), ?_⟩
  have h := (export_fields demoBuffer ⟨1, 0, 5, 90, "X"⟩ (by decide) (by decide)).2
  rw [show (102 : Nat) =
      100 + demoBuffer.length * demoBuffer.numberOfChannels * 2 from rfl, h]

/-- C3 amended: the writer never validates or rejects; even when the
supplied loop end lies at or beyond the frame count it produces the complete
byte image and stores the given start and end values in the loop-metadata
block. -/
theorem C3_no_validation (buffer : AudioBuffer) (lp : LoopPoint)
    (_hout : buffer.length ≤ lp.«end»)
    (h1 : lp.start < 4294967296) (h2 : lp.«end» < 4294967296) :
    (exportWavWithSmpl buffer (some lp)).length =
        112 + buffer.length * buffer.numberOfChannels * 2 ∧
      readU32 (exportWavWithSmpl buffer (some lp))
        (96 + buffer.length * buffer.numberOfChannels * 2) = lp.start ∧
      readU32 (exportWavWithSmpl buffer (some lp))
        (100 + buffer.length * buffer.numberOfChannels * 2) = lp.«end» :=
  ⟨export_length_some buffer lp,
    (export_fields buffer lp h1 h2).1, (export_fields buffer lp h1 h2).2⟩

/-- C3 amended witness: the out-of-range loop (0, 5) on a 1-frame buffer. -/
theorem C3_witness :
    (exportWavWithSmpl demoBuffer (some ⟨1, 0, 5, 90, "X"⟩)).length =
        112 + 1 * 1 * 2 ∧
      readU32 (exportWavWithSmpl demoBuffer (some ⟨1, 0, 5, 90, "X"⟩))
        (96 + 1 * 1 * 2) = 0 ∧
      readU32 (exportWavWithSmpl demoBuffer (some ⟨1, 0, 5, 90, "X"⟩))
        (100 + 1 * 1 * 2) = 5 :=
  C3_no_validation demoBuffer ⟨1, 0, 5, 90, "X"⟩ (by decide) (by decide) (by decide)

/-- C8: the 1-frame, 1-channel, sample-1.0 buffer with no loop yields exactly
46 bytes, declares outer size 38, and stores the PCM sample as the 16-bit
little-endian value 0x7FFF (bytes 0xFF, 0x7F). -/
theorem C8_full_scale_file :
    (exportWavWithSmpl fullScaleBuffer none).length = 46 ∧
      readU32 (exportWavWithSmpl fullScaleBuffer none) 4 = 38 ∧
      (exportWavWithSmpl fullScaleBuffer none).getD 44 0 = 255 ∧
      (exportWavWithSmpl fullScaleBuffer none).getD 45 0 = 127 := by
  have he : exportWavWithSmpl fullScaleBuffer none =
      wavHeader fullScaleBuffer false ++ [255, 127] := by
    rw [export_none_eq, pcm_fullScale]
  rw [he]
  decide

/-- C6: re-parsing the fmt and data blocks of a loop-free export recovers the
channel count and sample rate exactly and each sample up to one 16-bit
quantization step. -/
theorem C6_roundtrip (buffer : AudioBuffer)
    (hch : buffer.numberOfChannels < 65536)
    (hr : buffer.sampleRate < 4294967296)
    (hs : ∀ ch i, -1 ≤ buffer.channelData ch i ∧ buffer.channelData ch i ≤ 1) :
    readU16 (exportWavWithSmpl buffer none) 22 = buffer.numberOfChannels ∧
      readU32 (exportWavWithSmpl buffer none) 24 = buffer.sampleRate ∧
      ∀ i ch, i < buffer.length → ch < buffer.numberOfChannels →
        |decodeSample (readInt16 (exportWavWithSmpl buffer none)
            (44 + 2 * (i * buffer.numberOfChannels + ch))) -
          buffer.channelData ch i| ≤ 1 / 32767 := by
  refine ⟨?_, ?_, ?_⟩
  · rw [export_none_eq,
      readU16_append_left _ _ _ (by rw [wavHeader_length]; omega),
      readU16_header_channels _ _ hch]
  · rw [export_none_eq,
      readU32_append_left _ _ _ (by rw [wavHeader_length]; omega),
      readU32_header_rate _ _ hr]
  · intro i ch hi hc
    have hCpos : 0 < buffer.numberOfChannels := by omega
    have hk : i * buffer.numberOfChannels + ch <
        buffer.length * buffer.numberOfChannels := by
      have h1 : i * buffer.numberOfChannels + ch <
          (i + 1) * buffer.numberOfChannels := by
        have : (i + 1) * buffer.numberOfChannels =
            i * buffer.numberOfChannels + buffer.numberOfChannels := by ring
        omega
      have h2 : (i + 1) * buffer.numberOfChannels ≤
          buffer.length * buffer.numberOfChannels :=
        Nat.mul_le_mul_right _ hi
      omega
    have hmod : (i * buffer.numberOfChannels + ch) % buffer.numberOfChannels = ch := by
      rw [Nat.add_comm, Nat.add_mul_mod_self_right, Nat.mod_eq_of_lt hc]
    have hdiv : (i * buffer.numberOfChannels + ch) / buffer.numberOfChannels = i := by
      rw [Nat.mul_comm i buffer.numberOfChannels, Nat.mul_add_div hCpos,
        Nat.div_eq_of_lt hc, Nat.add_zero]
    have hread : readU16 (exportWavWithSmpl buffer none)
        (44 + 2 * (i * buffer.numberOfChannels + ch)) =
        ((encodeSample (buffer.channelData ch i)) % 65536).toNat := by
      rw [export_none_eq,
        show 44 + 2 * (i * buffer.numberOfChannels + ch) =
          (wavHeader buffer false).length + 2 * (i * buffer.numberOfChannels + ch)
          from by rw [wavHeader_length],
        readU16_append, pcm_sample_read buffer _ hk, hmod, hdiv]
    obtain ⟨heq, hlo, hhi⟩ :=
      encodeSample_spec (buffer.channelData ch i) (hs ch i).1 (hs ch i).2
    unfold readInt16
    dsimp only
    rw [hread]
    have hv : (if ((encodeSample (buffer.channelData ch i)) % 65536).toNat < 32768
        then (((encodeSample (buffer.channelData ch i)) % 65536).toNat : Int)
        else (((encodeSample (buffer.channelData ch i)) % 65536).toNat : Int) - 65536) =
        encodeSample (buffer.channelData ch i) := by
      omega
    rw [hv]
    exact decode_bound _ (hs ch i).1 (hs ch i).2

/-- C6 witness: a 1-frame mono buffer with sample 0.5. -/
theorem C6_witness :
    readU16 (exportWavWithSmpl halfBuffer none) 22 = 1 ∧
      readU32 (exportWavWithSmpl halfBuffer none) 24 = 44100 ∧
      |decodeSample (readInt16 (exportWavWithSmpl halfBuffer none)
          (44 + 2 * (0 * 1 + 0))) - halfBuffer.channelData 0 0| ≤ 1 / 32767 := by
  have h := C6_roundtrip halfBuffer (by decide) (by decide)
    (fun ch i => ⟨show (-1 : ℚ) ≤ 1 / 2 by norm_num, show (1 : ℚ) / 2 ≤ 1 by norm_num⟩)
  exact ⟨h.1, h.2.1, h.2.2 0 0 (by decide) (by decide)⟩

end Loopmaster
